import Mathlib

/-!
Verification of the e-commerce analytics dashboard
(src/E-commercce project/dashboard.py) against its specification.

The dashboard loads a CSV of transactions into a dataframe and computes a
fixed set of aggregates.  We embed the dataframe as a list of rows plus the
two pieces of mutable dataframe state that the script changes in place:
the derived Age_Group column (line 93) and the categorical dtype of the
Country column (line 162).  Cells that can be missing (NaN) are modelled
with Option; pandas groupby, value_counts and nunique drop missing keys by
default, which the embedding mirrors.  Purchase amounts are modelled as
exact rationals.  Non-finite float results (NaN, +inf, -inf) arising from
division are modelled by the ExtVal type; dropna removes exactly the NaN
values, as in pandas.
-/

namespace ECommerce

/-- Calendar date, the parsed form of the Transaction_Date column
(pd.to_datetime, line 25). -/
structure Date where
  year : ℕ
  month : ℕ
  day : ℕ
deriving DecidableEq, Repr

/-- One transaction row after schema normalization.  Optional fields model
cells that may be missing (NaN) in the CSV. -/
structure Row where
  date : Date
  amount : ℚ
  category : Option String
  country : Option String
  user : Option String
  age : Option ℤ
  payment : Option String
deriving DecidableEq, Repr

/-- The working dataframe df_transactions: its rows plus the dataframe
state the script mutates in place, namely the derived Age_Group column
added on line 93 and the categorical dtype given to the Country column on
line 162.  The categorical dtype changes the semantics of the later
two-key groupby (line 163, with the pandas default observed=False). -/
structure Table where
  rows : List Row
  ageGroupAdded : Bool
  countryCategorical : Bool
deriving DecidableEq, Repr

/-- Value of a float computation that may be non-finite: NaN, +inf, -inf
or an ordinary (finite) value. -/
inductive ExtVal where
  | nan : ExtVal
  | inf : ExtVal
  | ninf : ExtVal
  | val : ℚ → ExtVal
deriving DecidableEq, Repr

/-- True exactly for NaN; dropna removes exactly these values. -/
def ExtVal.isNan : ExtVal → Bool
  | .nan => true
  | _ => false

/-- True exactly for finite values. -/
def ExtVal.isFinite : ExtVal → Bool
  | .val _ => true
  | _ => false

/-- Float division as numpy and pandas perform it: x / 0 is NaN when
x = 0, +inf when x is positive and -inf when x is negative; otherwise the
exact quotient. -/
def divExt (a b : ℚ) : ExtVal :=
  if b = 0 then (if a = 0 then .nan else if 0 < a then .inf else .ninf)
  else .val (a / b)

/-- The five age brackets of line 92: labels = [Below 20, 20s, 30s, 40s, 50+]. -/
inductive AgeGroup where
  | below20 : AgeGroup
  | in20s : AgeGroup
  | in30s : AgeGroup
  | in40s : AgeGroup
  | fiftyPlus : AgeGroup
deriving DecidableEq, Repr

/-- The pd.cut of line 93 with bins = [0, 19, 29, 39, 49, inf],
right=True and include_lowest=True, restricted to integer ages: the bins
are [0,19], (19,29], (29,39], (39,49], (49,inf].  A missing age, or an
age below 0 (outside every bin), yields NaN, i.e. none. -/
def ageCut : Option ℤ → Option AgeGroup
  | none => none
  | some a =>
    if a < 0 then none
    else if a ≤ 19 then some .below20
    else if a ≤ 29 then some .in20s
    else if a ≤ 39 then some .in30s
    else if a ≤ 49 then some .in40s
    else some .fiftyPlus

/-- Column-name normalization of line 24 applied characterwise: the four
single-character replace calls
replace(space, underscore), replace(lparen, empty), replace(rparen, empty),
replace(hyphen, underscore) applied left to right act independently on each
character, since no replacement output is a later pattern. -/
def normalizeChar : Char → Option Char := fun c =>
  if c = ' ' then some '_'
  else if c = '(' then none
  else if c = ')' then none
  else if c = '-' then some '_'
  else some c

/-- Normalized column name (line 24), on the character list of the name. -/
def normalizeColumn (cs : List Char) : List Char :=
  cs.filterMap normalizeChar

/-- Modelled from the claim wording of C6 (spec section 4.1): spaces are
replaced and parenthesis and hyphen characters are stripped, i.e. deleted.
Used only to compare the claimed behaviour with the code. -/
def claimNormalizeColumn (cs : List Char) : List Char :=
  cs.filterMap (fun c =>
    if c = ' ' then some '_'
    else if c = '(' then none
    else if c = ')' then none
    else if c = '-' then none
    else some c)

/-! String ordering.  Pandas sorts object (string) group keys using the
ordinary lexicographic order on code points; we define that order directly
on the character list of a string. -/

/-- Lexicographic strict order on character lists (by code point). -/
def charListLt : List Char → List Char → Bool
  | [], [] => false
  | [], _ :: _ => true
  | _ :: _, [] => false
  | a :: as, b :: bs =>
    if a < b then true
    else if b < a then false
    else charListLt as bs

/-- Lexicographic strict order on strings. -/
def strLt (a b : String) : Bool := charListLt a.data b.data

/-- Lexicographic order on strings, reflexive version. -/
def strLe (a b : String) : Prop := strLt a b = true ∨ a = b

instance : DecidableRel strLe := fun a b =>
  inferInstanceAs (Decidable (_ ∨ _))

/-- Ascending sort of the distinct values of a key column, as groupby with
sort=True produces group keys. -/
def sortedKeys (vals : List String) : List String :=
  List.insertionSort strLe vals.dedup

/-- Sum of the Purchase_Amount of the rows whose key column holds the
given (non-missing) value. -/
def sumAmountBy (key : Row → Option String) (rows : List Row) (k : String) : ℚ :=
  ((rows.filter (fun r => decide (key r = some k))).map (fun r => r.amount)).sum

/-- Dataframe groupby on a possibly-missing string key followed by a sum of
Purchase_Amount: one entry per distinct present key value, key-ascending;
rows with a missing key are dropped (pandas groupby default dropna=True). -/
def groupSum (key : Row → Option String) (rows : List Row) : List (String × ℚ) :=
  (sortedKeys (rows.filterMap key)).map (fun k => (k, sumAmountBy key rows k))

/-- Dataframe groupby on a possibly-missing string key followed by a row
count (also the model of value_counts, which likewise drops missing keys). -/
def groupCount (key : Row → Option String) (rows : List Row) : List (String × ℕ) :=
  (sortedKeys (rows.filterMap key)).map
    (fun k => (k, (rows.filter (fun r => decide (key r = some k))).length))

/-- Ordering used by sort_values(ascending=False) and nlargest on a table
keyed by any first component with a numeric second component: descending
in the second component; the model sort is stable. -/
def descSnd {α : Type} {β : Type} [LinearOrder β] (x y : α × β) : Prop :=
  y.2 ≤ x.2

instance {α β : Type} [LinearOrder β] : DecidableRel (@descSnd α β _) := fun x y =>
  inferInstanceAs (Decidable (y.2 ≤ x.2))

instance {α β : Type} [LinearOrder β] : IsTotal (α × β) descSnd :=
  ⟨fun x y => le_total y.2 x.2⟩

instance {α β : Type} [LinearOrder β] : IsTrans (α × β) descSnd :=
  ⟨fun _ _ _ h1 h2 => le_trans h2 h1⟩

/-! The scalar KPIs (lines 34-40) and the grouped aggregates. -/

/-- Line 34: total_revenue = Purchase_Amount.sum() over every row. -/
def totalRevenue (rows : List Row) : ℚ :=
  (rows.map (fun r => r.amount)).sum

/-- Line 37: avg_purchase_value = Purchase_Amount.mean(); the mean of an
empty column is NaN. -/
def avgPurchaseValue (rows : List Row) : ExtVal :=
  divExt (totalRevenue rows) rows.length

/-- Line 40: total_transactions = row count of the table. -/
def totalTransactions (rows : List Row) : ℕ := rows.length

/-- Line 55: revenue_by_category = groupby Product_Category, sum of
Purchase_Amount, sort_values descending. -/
def revenueByCategory (rows : List Row) : List (String × ℚ) :=
  List.insertionSort descSnd (groupSum (fun r => r.category) rows)

/-- Line 65: top_countries_revenue = groupby Country, sum, nlargest(5);
nlargest keeps ties by first position, i.e. it is the first five entries of
a stable descending sort of the key-ascending grouped table. -/
def topCountriesRevenue (rows : List Row) : List (String × ℚ) :=
  (List.insertionSort descSnd (groupSum (fun r => r.country) rows)).take 5

/-- Month bucket of a date: months are counted linearly so that consecutive
calendar months get consecutive indices, as resample with a month-end
frequency buckets them. -/
def monthIdx (d : Date) : ℕ := d.year * 12 + (d.month - 1)

/-- Month buckets of all rows. -/
def monthIdxs (rows : List Row) : List ℕ :=
  rows.map (fun r => monthIdx r.date)

/-- Lines 79 and 171: resample ME and sum.  The result has one entry per
calendar month from the earliest to the latest transaction month
inclusive, in chronological order; a month inside that span with no
transactions gets sum 0.  An empty table yields an empty series. -/
def monthlyRevenue (rows : List Row) : List ℚ :=
  match (monthIdxs rows).min?, (monthIdxs rows).max? with
  | some lo, some hi =>
    (List.range (hi + 1 - lo)).map (fun i =>
      ((rows.filter (fun r => decide (monthIdx r.date = lo + i))).map
        (fun r => r.amount)).sum)
  | _, _ => []

/-- Line 94: revenue_by_age_group = groupby of the derived Age_Group
column, sum, reindex(labels): one entry per bracket in bracket order;
rows whose age falls in no bracket (missing or negative age) are dropped,
brackets with no rows sum to 0. -/
def revenueByAgeGroup (rows : List Row) : List (AgeGroup × ℚ) :=
  [AgeGroup.below20, AgeGroup.in20s, AgeGroup.in30s, AgeGroup.in40s,
    AgeGroup.fiftyPlus].map (fun g =>
      (g, ((rows.filter (fun r => decide (ageCut r.age = some g))).map
        (fun r => r.amount)).sum))

/-- Line 111: top_customers = groupby User_Name, sum, nlargest(10). -/
def topCustomers (rows : List Row) : List (String × ℚ) :=
  (List.insertionSort descSnd (groupSum (fun r => r.user) rows)).take 10

/-- Line 115: counts of User_Name (value_counts), count-descending. -/
def userOrderCounts (rows : List Row) : List (String × ℕ) :=
  List.insertionSort descSnd (groupCount (fun r => r.user) rows)

/-- Lines 115-116: most_frequent_shoppers = value_counts nlargest(10),
columns relabeled to User_Name and Order_Count. -/
def mostFrequentShoppers (rows : List Row) : List (String × ℕ) :=
  (userOrderCounts rows).take 10

/-- Line 120: avg_age = Age.mean(); missing ages are skipped, the mean of
no ages is NaN. -/
def averageAge (rows : List Row) : ExtVal :=
  divExt (((rows.filterMap (fun r => r.age)).map (fun a => (a : ℚ))).sum)
    (rows.filterMap (fun r => r.age)).length

/-- Day number of a date in the proleptic Gregorian calendar (the civil
day-count algorithm), so that consecutive calendar days get consecutive
numbers, as resample with a daily frequency buckets them. -/
def dayNumber (dt : Date) : ℤ :=
  let y : ℤ := if (dt.month : ℤ) ≤ 2 then (dt.year : ℤ) - 1 else (dt.year : ℤ)
  let era : ℤ := (if 0 ≤ y then y else y - 399) / 400
  let yoe : ℤ := y - era * 400
  let mp : ℤ := ((dt.month : ℤ) + 9) % 12
  let doy : ℤ := (153 * mp + 2) / 5 + (dt.day : ℤ) - 1
  let doe : ℤ := yoe * 365 + yoe / 4 - yoe / 100 + doy
  era * 146097 + doe - 719468

/-- Round half to even at two decimals, as round(2) on floats does. -/
def round2 (q : ℚ) : ℚ :=
  let s : ℚ := q * 100
  let n : ℤ := ⌊s⌋
  let f : ℚ := s - n
  let r : ℤ :=
    if f < 1 / 2 then n
    else if 1 / 2 < f then n + 1
    else if n % 2 = 0 then n else n + 1
  (r : ℚ) / 100

/-- Round a finite value at two decimals; NaN and infinities are kept. -/
def round2Ext : ExtVal → ExtVal
  | .val q => .val (round2 q)
  | e => e

/-- Line 125: daily_avg_sales = resample D, mean of Purchase_Amount,
round(2): one entry per calendar day from the earliest to the latest
transaction day; a day with no transactions has mean 0 / 0 = NaN. -/
def dailyAverageSales (rows : List Row) : List ExtVal :=
  let days := rows.map (fun r => dayNumber r.date)
  match days.min?, days.max? with
  | some lo, some hi =>
    (List.range ((hi + 1 - lo).toNat)).map (fun i =>
      let dayRows := rows.filter (fun r => decide (dayNumber r.date = lo + i))
      round2Ext (divExt ((dayRows.map (fun r => r.amount)).sum) dayRows.length))
  | _, _ => []

/-- Line 136: revenue_by_payment_method = groupby Payment_Method, sum,
sort_values descending. -/
def revenueByPaymentMethod (rows : List Row) : List (String × ℚ) :=
  List.insertionSort descSnd (groupSum (fun r => r.payment) rows)

/-- Chronological order on dates (dates parsed by to_datetime have
month at most 12 and day at most 31, so the packed comparison is the
calendar order). -/
def dateLe (a b : Date) : Prop :=
  (a.year * 32 + a.month) * 32 + a.day ≤ (b.year * 32 + b.month) * 32 + b.day

instance : DecidableRel dateLe := fun a b =>
  inferInstanceAs (Decidable (_ ≤ _))

/-- Line 146: groupby Transaction_Date, sum, one entry per distinct date in
ascending date order. -/
def revenueByDate (rows : List Row) : List (Date × ℚ) :=
  (List.insertionSort dateLe (rows.map (fun r => r.date)).dedup).map
    (fun d => (d, ((rows.filter (fun r => decide (r.date = d))).map
      (fun r => r.amount)).sum))

/-- Lines 146-148: peak_shopping_day = nlargest(1) of the daily revenue
sums: the date with the highest revenue and that revenue. -/
def peakShoppingDay (rows : List Row) : Option (Date × ℚ) :=
  (List.insertionSort descSnd (revenueByDate rows)).head?

/-- Line 152: country_revenue = groupby Country, sum (key-ascending). -/
def countryRevenue (rows : List Row) : List (String × ℚ) :=
  groupSum (fun r => r.country) rows

/-- Line 153: the denominator of the country share: the variable
total_revenue is reassigned to country_revenue.sum(), the sum of the
per-country revenues, not the overall total of line 34. -/
def shareDenominator (rows : List Row) : ℚ :=
  ((countryRevenue rows).map (fun p => p.2)).sum

/-- Line 154: country_revenue_percentage = country_revenue divided by the
reassigned total, times 100, rounded to two decimals. -/
def countryRevenueShare (rows : List Row) : List (String × ExtVal) :=
  (countryRevenue rows).map (fun p =>
    (p.1, round2Ext (divExt (p.2 * 100) (shareDenominator rows))))

/-! Top 5 product categories per country (lines 161-166).  Line 162 first
converts the Country column to the categorical dtype.  The groupby of line
163 then uses the pandas default observed=False, so its result is indexed
by the full cartesian product of the Country category levels (the distinct
observed countries) with the distinct observed product categories, with
sum 0 for combinations that never occur; the frame is ordered country
ascending then category ascending.  Line 164 ranks within each country
with rank(method=first, ascending=False): the rank of an entry is one plus
the number of strictly larger values in its country plus the number of
earlier entries of its country with an equal value.  Line 165 keeps ranks
at most 5 and line 166 sorts by country ascending, revenue descending. -/

/-- Distinct countries, ascending: the category levels of the Country
column. -/
def countryKeys (rows : List Row) : List String :=
  sortedKeys (rows.filterMap (fun r => r.country))

/-- Distinct product categories, ascending. -/
def categoryKeys (rows : List Row) : List String :=
  sortedKeys (rows.filterMap (fun r => r.category))

/-- Revenue of a (country, category) pair. -/
def pairAmount (rows : List Row) (c g : String) : ℚ :=
  ((rows.filter (fun r =>
    decide (r.country = some c) && decide (r.category = some g))).map
      (fun r => r.amount)).sum

/-- Distinct categories observed within one country, ascending: the group
keys the line 163 groupby would produce without the categorical dtype. -/
def catsObservedIn (rows : List Row) (c : String) : List String :=
  sortedKeys ((rows.filter (fun r => decide (r.country = some c))).filterMap
    (fun r => r.category))

/-- Categories paired with a country by the line 163 groupby: with the
categorical Country dtype (observed=False) every observed category, even
one never sold in that country; otherwise only the observed pairs. -/
def catsFor (t : Table) (c : String) : List String :=
  if t.countryCategorical then categoryKeys t.rows else catsObservedIn t.rows c

/-- Revenues of one country block of the line 163 grouped frame, in
category-ascending order. -/
def blockAmounts (t : Table) (c : String) : List ℚ :=
  (catsFor t c).map (pairAmount t.rows c)

/-- rank(method=first, ascending=False) of line 164 for the i-th entry of
a list of values: one plus the number of strictly larger values plus the
number of earlier equal values. -/
def rankAt (l : List ℚ) (i : ℕ) : ℕ :=
  1 + l.countP (fun v => decide (l.getD i 0 < v))
    + (l.take i).countP (fun v => decide (v = l.getD i 0))

/-- The rank column of one country block. -/
def rankFirstDesc (l : List ℚ) : List ℕ :=
  (List.range l.length).map (rankAt l)

/-- One row of the ranked_sales frame. -/
structure SRow where
  country : String
  category : String
  amount : ℚ
  rank : ℕ
deriving DecidableEq, Repr

/-- The rows of the ranked_sales frame for one country. -/
def blockRows (t : Table) (c : String) : List SRow :=
  (((catsFor t c).zip (blockAmounts t c)).zip
      (rankFirstDesc (blockAmounts t c))).map
    (fun p => ⟨c, p.1.1, p.1.2, p.2⟩)

/-- Lines 163-164: the ranked_sales frame, country blocks in country
ascending order. -/
def rankedSales (t : Table) : List SRow :=
  (countryKeys t.rows).flatMap (fun c => blockRows t c)

/-- Final order of line 166: country ascending, then revenue descending. -/
def srowLe (x y : SRow) : Prop :=
  strLt x.country y.country = true ∨ (x.country = y.country ∧ y.amount ≤ x.amount)

instance : DecidableRel srowLe := fun x y =>
  inferInstanceAs (Decidable (_ ∨ _))

/-- Lines 165-166: keep ranks at most 5 and sort by country ascending,
revenue descending. -/
def top5PerCountry (t : Table) : List SRow :=
  List.insertionSort srowLe ((rankedSales t).filter (fun r => decide (r.rank ≤ 5)))

/-! Monthly growth rate (lines 171-176). -/

/-- Consecutive pairs (previous month, current month) of the monthly
revenue series: the shift(1) of line 173 aligned with the series. -/
def growthPairs (rows : List Row) : List (ℚ × ℚ) :=
  (monthlyRevenue rows).zip (monthlyRevenue rows).tail

/-- Line 174 for one pair: (current - previous) / previous * 100 in float
arithmetic.  When the previous revenue is 0 this divides by zero: NaN if
the current revenue is also 0, otherwise a signed infinity. -/
def growthStep (prev cur : ℚ) : ExtVal :=
  if prev = 0 then (if cur = 0 then .nan else if 0 < cur then .inf else .ninf)
  else .val ((cur - prev) / prev * 100)

/-- The Growth_Rate_Percentage column, starting at the second month (the
first month, whose shifted predecessor is NaN, yields NaN and is dropped
below either way). -/
def growthRaw (rows : List Row) : List ExtVal :=
  (growthPairs rows).map (fun p => growthStep p.1 p.2)

/-- Line 176: dropna removes exactly the NaN entries before the series is
displayed; infinities pass through. -/
def growthDisplayed (rows : List Row) : List ExtVal :=
  (growthRaw rows).filter (fun v => !v.isNan)

/-- Distinct calendar months that actually occur in the data (used to
state claim C3, which counts distinct months rather than spanned ones). -/
def distinctMonths (rows : List Row) : ℕ :=
  (monthIdxs rows).dedup.length

/-! Popular categories and customer lifetime value (lines 184-200). -/

/-- Lines 184-185: most_popular_categories = value_counts of
Product_Category, nlargest(5). -/
def popularCategories (rows : List Row) : List (String × ℕ) :=
  (List.insertionSort descSnd (groupCount (fun r => r.category) rows)).take 5

/-- One row of the clv_by_country frame (lines 195-199). -/
structure CLVRow where
  country : String
  total_revenue : ℚ
  unique_customers : ℕ
  clv : ExtVal
deriving DecidableEq, Repr

/-- Descending order on CLV values as sort_values(ascending=False) orders
floats: +inf largest, then finite values, then -inf, with NaN always
placed last. -/
def clvGeB : ExtVal → ExtVal → Bool
  | .nan, .nan => true
  | .nan, _ => false
  | _, .nan => true
  | .inf, _ => true
  | _, .inf => false
  | .val q, .val r => decide (r ≤ q)
  | .val _, .ninf => true
  | .ninf, .val _ => false
  | .ninf, .ninf => true

/-- Sort relation of line 200. -/
def clvLe (x y : CLVRow) : Prop := clvGeB x.clv y.clv = true

instance : DecidableRel clvLe := fun x y =>
  inferInstanceAs (Decidable (_ = true))

/-- Lines 195-200: per country, the summed revenue, the number of distinct
non-missing customers (nunique) and CLV = revenue / customers, sorted by
CLV descending.  A country whose rows all lack a user name has zero unique
customers and a divided-by-zero CLV. -/
def clvByCountry (rows : List Row) : List CLVRow :=
  List.insertionSort clvLe ((countryKeys rows).map (fun c =>
    let cRows := rows.filter (fun r => decide (r.country = some c))
    let rev := (cRows.map (fun r => r.amount)).sum
    let uniq := ((cRows.filterMap (fun r => r.user)).dedup).length
    ⟨c, rev, uniq, divExt rev uniq⟩))

/-! The report pipeline.  Each displayed aggregate is one operation on the
working dataframe; an operation returns its result together with the
dataframe it leaves behind.  Only two operations change the dataframe:
line 93 adds the Age_Group column and line 162 makes Country categorical.
Every other operation only reads it. -/

/-- Line 34. -/
def totalRevenueOp (t : Table) : ℚ × Table := (totalRevenue t.rows, t)

/-- Line 37. -/
def avgPurchaseValueOp (t : Table) : ExtVal × Table := (avgPurchaseValue t.rows, t)

/-- Line 40. -/
def totalTransactionsOp (t : Table) : ℕ × Table := (totalTransactions t.rows, t)

/-- Line 55. -/
def revenueByCategoryOp (t : Table) : List (String × ℚ) × Table :=
  (revenueByCategory t.rows, t)

/-- Line 65. -/
def topCountriesRevenueOp (t : Table) : List (String × ℚ) × Table :=
  (topCountriesRevenue t.rows, t)

/-- Line 79. -/
def monthlyRevenueOp (t : Table) : List ℚ × Table := (monthlyRevenue t.rows, t)

/-- Lines 91-94: the only stated mutation, adding the Age_Group column,
then grouping by it. -/
def revenueByAgeGroupOp (t : Table) : List (AgeGroup × ℚ) × Table :=
  let t2 : Table := { t with ageGroupAdded := true }
  (revenueByAgeGroup t2.rows, t2)

/-- Line 111. -/
def topCustomersOp (t : Table) : List (String × ℚ) × Table := (topCustomers t.rows, t)

/-- Lines 115-116. -/
def mostFrequentShoppersOp (t : Table) : List (String × ℕ) × Table :=
  (mostFrequentShoppers t.rows, t)

/-- Line 120. -/
def averageAgeOp (t : Table) : ExtVal × Table := (averageAge t.rows, t)

/-- Lines 125-126. -/
def dailyAverageSalesOp (t : Table) : List ExtVal × Table :=
  (dailyAverageSales t.rows, t)

/-- Line 136. -/
def revenueByPaymentMethodOp (t : Table) : List (String × ℚ) × Table :=
  (revenueByPaymentMethod t.rows, t)

/-- Lines 146-148. -/
def peakShoppingDayOp (t : Table) : Option (Date × ℚ) × Table :=
  (peakShoppingDay t.rows, t)

/-- Lines 152-155. -/
def countryRevenueShareOp (t : Table) : List (String × ExtVal) × Table :=
  (countryRevenueShare t.rows, t)

/-- Lines 162-166: converts the Country column to categorical (a second,
unstated mutation of the working dataframe) and computes the top five
categories per country on the resulting dataframe. -/
def topCategoriesByCountryOp (t : Table) : List SRow × Table :=
  let t2 : Table := { t with countryCategorical := true }
  (top5PerCountry t2, t2)

/-- Lines 171-176. -/
def growthSeriesOp (t : Table) : List ExtVal × Table := (growthDisplayed t.rows, t)

/-- Lines 184-185. -/
def popularCategoriesOp (t : Table) : List (String × ℕ) × Table :=
  (popularCategories t.rows, t)

/-- Lines 195-200. -/
def clvByCountryOp (t : Table) : List CLVRow × Table := (clvByCountry t.rows, t)

/-- The eighteen result tables and scalars the engine hands to the
presentation layer. -/
structure Report where
  total_revenue : ℚ
  avg_purchase_value : ExtVal
  total_transactions : ℕ
  revenue_by_category : List (String × ℚ)
  top_countries_revenue : List (String × ℚ)
  monthly_revenue : List ℚ
  revenue_by_age_group : List (AgeGroup × ℚ)
  top_customers : List (String × ℚ)
  most_frequent_shoppers : List (String × ℕ)
  avg_age : ExtVal
  daily_avg_sales : List ExtVal
  revenue_by_payment_method : List (String × ℚ)
  peak_shopping_day : Option (Date × ℚ)
  country_revenue_percentage : List (String × ExtVal)
  top_categories_by_country : List SRow
  growth_series : List ExtVal
  most_popular_categories : List (String × ℕ)
  clv_by_country : List CLVRow

/-- The whole report, computed by threading the working dataframe through
the operations in program order (lines 34 to 200). -/
def mkReport (rows : List Row) : Report :=
  let t0 : Table := ⟨rows, false, false⟩
  let p1 := totalRevenueOp t0
  let p2 := avgPurchaseValueOp p1.2
  let p3 := totalTransactionsOp p2.2
  let p4 := revenueByCategoryOp p3.2
  let p5 := topCountriesRevenueOp p4.2
  let p6 := monthlyRevenueOp p5.2
  let p7 := revenueByAgeGroupOp p6.2
  let p8 := topCustomersOp p7.2
  let p9 := mostFrequentShoppersOp p8.2
  let p10 := averageAgeOp p9.2
  let p11 := dailyAverageSalesOp p10.2
  let p12 := revenueByPaymentMethodOp p11.2
  let p13 := peakShoppingDayOp p12.2
  let p14 := countryRevenueShareOp p13.2
  let p15 := topCategoriesByCountryOp p14.2
  let p16 := growthSeriesOp p15.2
  let p17 := popularCategoriesOp p16.2
  let p18 := clvByCountryOp p17.2
  ⟨p1.1, p2.1, p3.1, p4.1, p5.1, p6.1, p7.1, p8.1, p9.1, p10.1, p11.1,
    p12.1, p13.1, p14.1, p15.1, p16.1, p17.1, p18.1⟩

/-- Lines 15-21: perform_analytics_and_visualize reads the file at the
given path from the file system (modelled as a map from paths to parsed
contents).  A missing file raises FileNotFoundError, which is caught: an
error message is shown and the function returns before computing any
aggregate.  Otherwise the full report is computed. -/
def analyze (filePath : String) (fileSystem : String → Option (List Row)) :
    Except String Report :=
  match fileSystem filePath with
  | none => .error ("Error: The file " ++ filePath ++ " was not found.")
  | some rows => .ok (mkReport rows)

/-! Concrete input tables used by the scenario of spec section 8 and by
the counterexamples. -/

/-- Scenario row 1: 2024-01-05, 100, Books, US, alice, 25, card. -/
def scRow1 : Row :=
  ⟨⟨2024, 1, 5⟩, 100, some "Books", some "US", some "alice", some 25, some "card"⟩

/-- Scenario row 2: 2024-01-20, 50, Toys, US, bob, 35, cash. -/
def scRow2 : Row :=
  ⟨⟨2024, 1, 20⟩, 50, some "Toys", some "US", some "bob", some 35, some "cash"⟩

/-- Scenario row 3: 2024-02-01, 200, Books, UK, alice, 25, card. -/
def scRow3 : Row :=
  ⟨⟨2024, 2, 1⟩, 200, some "Books", some "UK", some "alice", some 25, some "card"⟩

/-- The three-row scenario table of spec section 8. -/
def scenarioRows : List Row := [scRow1, scRow2, scRow3]

/-- A one-row table whose product category is missing. -/
def missingCatRows : List Row :=
  [⟨⟨2024, 1, 5⟩, 100, none, some "US", some "alice", some 25, some "card"⟩]


/-- A two-row table with transactions in January and March 2024 only:
two distinct months, but the resampled series spans three months. -/
def gapRows : List Row :=
  [⟨⟨2024, 1, 5⟩, 100, some "Books", some "US", some "alice", some 25, some "card"⟩,
   ⟨⟨2024, 3, 10⟩, 200, some "Toys", some "UK", some "bob", some 35, some "cash"⟩]


/-- A one-row table whose only transaction has no user name: its country
has zero unique customers. -/
def noUserRows : List Row :=
  [⟨⟨2024, 1, 5⟩, 100, some "Books", some "US", none, some 25, some "card"⟩]


/-! Claim C5: the top-5-categories-per-country table.  Definitions for the
claim-modelled comparison version and the counterexample input. -/

/-- Distinct values keeping the first occurrence of each, as pandas
unique and drop_duplicates order values (used only by the claim-modelled
top-5 version below). -/
def firstSeen (l : List String) : List String :=
  l.foldl (fun acc a => if a ∈ acc then acc else acc ++ [a]) []

/-- Modelled from the claim wording of C5: the categories observed in one
country, in order of first occurrence in the original rows. -/
def specCatsFirstSeen (rows : List Row) (c : String) : List String :=
  firstSeen ((rows.filter (fun r => decide (r.country = some c))).filterMap
    (fun r => r.category))

/-- Modelled from the claim wording of C5: one country block ranking only
the categories observed in that country, ties broken by first occurrence
in the original row order. -/
def specBlockRows (rows : List Row) (c : String) : List SRow :=
  (((specCatsFirstSeen rows c).zip
      ((specCatsFirstSeen rows c).map (pairAmount rows c))).zip
    (rankFirstDesc ((specCatsFirstSeen rows c).map (pairAmount rows c)))).map
      (fun p => ⟨c, p.1.1, p.1.2, p.2⟩)

/-- Modelled from the claim wording of C5: per country, rank the observed
categories by summed revenue with ties broken by first occurrence in the
original row order, keep ranks at most 5, and order the result by country
ascending then revenue descending.  Used only to compare the claimed
behaviour with the code. -/
def specTop5PerCountry (rows : List Row) : List SRow :=
  List.insertionSort srowLe
    (((countryKeys rows).flatMap (fun c => specBlockRows rows c)).filter
      (fun r => decide (r.rank ≤ 5)))

/-- Counterexample input for C5: six US categories named f, e, d, c, b, a
in that original order, all with revenue 10, and one UK category g with
revenue 5. -/
def top5Rows : List Row :=
  [⟨⟨2024, 1, 1⟩, 10, some "f", some "US", some "u", some 30, some "card"⟩,
   ⟨⟨2024, 1, 1⟩, 10, some "e", some "US", some "u", some 30, some "card"⟩,
   ⟨⟨2024, 1, 1⟩, 10, some "d", some "US", some "u", some 30, some "card"⟩,
   ⟨⟨2024, 1, 1⟩, 10, some "c", some "US", some "u", some 30, some "card"⟩,
   ⟨⟨2024, 1, 1⟩, 10, some "b", some "US", some "u", some 30, some "card"⟩,
   ⟨⟨2024, 1, 1⟩, 10, some "a", some "US", some "u", some 30, some "card"⟩,
   ⟨⟨2024, 1, 1⟩, 5, some "g", some "UK", some "v", some 30, some "card"⟩]

/-! Order lemmas for the lexicographic string order and the final sort
relation of line 166. -/

/-- Transitivity of the lexicographic order on character lists. -/
lemma charListLt_trans : ∀ (a b c : List Char),
    charListLt a b = true → charListLt b c = true → charListLt a c = true := by
  intro a
  induction a with
  | nil =>
    intro b c hab hbc
    cases b with
    | nil => simp [charListLt] at hab
    | cons y ys =>
      cases c with
      | nil => simp [charListLt] at hbc
      | cons z zs => simp [charListLt]
  | cons x xs ih =>
    intro b c hab hbc
    cases b with
    | nil => simp [charListLt] at hab
    | cons y ys =>
      cases c with
      | nil => simp [charListLt] at hbc
      | cons z zs =>
        simp only [charListLt] at hab hbc ⊢
        by_cases hxy : x < y
        · by_cases hyz : y < z
          · simp [lt_trans hxy hyz]
          · by_cases hzy : z < y
            · simp [hyz, hzy] at hbc
            · have hy : y = z := le_antisymm (not_lt.mp hzy) (not_lt.mp hyz)
              subst hy
              simp [hxy]
        · by_cases hyx : y < x
          · simp [hxy, hyx] at hab
          · have hx : x = y := le_antisymm (not_lt.mp hyx) (not_lt.mp hxy)
            subst hx
            simp only [lt_irrefl, if_false] at hab
            by_cases hxz : x < z
            · simp [hxz]
            · by_cases hzx : z < x
              · simp [hxz, hzx] at hbc
              · have hx2 : x = z := le_antisymm (not_lt.mp hzx) (not_lt.mp hxz)
                subst hx2
                simp only [lt_irrefl, if_false] at hbc ⊢
                exact ih ys zs hab hbc

/-- Two character lists neither of which is below the other are equal. -/
lemma charListLt_connex : ∀ (a b : List Char),
    charListLt a b = false → charListLt b a = false → a = b := by
  intro a
  induction a with
  | nil =>
    intro b hab _
    cases b with
    | nil => rfl
    | cons y ys => simp [charListLt] at hab
  | cons x xs ih =>
    intro b hab hba
    cases b with
    | nil => simp [charListLt] at hba
    | cons y ys =>
      simp only [charListLt] at hab hba
      by_cases hxy : x < y
      · simp [hxy] at hab
      · by_cases hyx : y < x
        · simp [hxy, hyx] at hba
        · have hx : x = y := le_antisymm (not_lt.mp hyx) (not_lt.mp hxy)
          subst hx
          simp only [lt_irrefl, if_false] at hab hba
          rw [ih ys hab hba]

/-- Transitivity of the string order. -/
lemma strLt_trans (a b c : String) :
    strLt a b = true → strLt b c = true → strLt a c = true :=
  charListLt_trans a.data b.data c.data

/-- Two strings neither of which is below the other are equal. -/
lemma strLt_connex (a b : String) :
    strLt a b = false → strLt b a = false → a = b := by
  intro hab hba
  cases a with
  | mk da =>
    cases b with
    | mk db =>
      have := charListLt_connex da db hab hba
      rw [this]

instance : IsTrans SRow srowLe := by
  constructor
  intro x y z hxy hyz
  rcases hxy with hlt1 | ⟨heq1, hge1⟩
  · rcases hyz with hlt2 | ⟨heq2, _⟩
    · exact Or.inl (strLt_trans _ _ _ hlt1 hlt2)
    · exact Or.inl (heq2 ▸ hlt1)
  · rcases hyz with hlt2 | ⟨heq2, hge2⟩
    · exact Or.inl (heq1 ▸ hlt2)
    · exact Or.inr ⟨heq1.trans heq2, le_trans hge2 hge1⟩

instance : IsTotal SRow srowLe := by
  constructor
  intro x y
  by_cases h1 : strLt x.country y.country = true
  · exact Or.inl (Or.inl h1)
  · by_cases h2 : strLt y.country x.country = true
    · exact Or.inr (Or.inl h2)
    · have heq : x.country = y.country :=
        strLt_connex _ _ (Bool.not_eq_true _ ▸ h1 : strLt x.country y.country = false)
          (Bool.not_eq_true _ ▸ h2 : strLt y.country x.country = false)
      rcases le_total x.amount y.amount with h | h
      · exact Or.inr (Or.inr ⟨heq.symm, h⟩)
      · exact Or.inl (Or.inr ⟨heq, h⟩)

/-! Helper lemmas: a sum grouped over the distinct values of a key equals
the sum over the rows carrying those values. -/

/-- Sum of a constant-zero map. -/
lemma sum_map_zero_fn {K M : Type} [AddCommMonoid M] (ks : List K) :
    (ks.map (fun _ => (0 : M))).sum = 0 := by
  induction ks with
  | nil => rfl
  | cons a ks ih => simp [ih]

/-- Sums distribute over a pointwise addition under a map. -/
lemma sum_map_add_fn {K M : Type} [AddCommMonoid M] (ks : List K) (f g : K → M) :
    (ks.map (fun k => f k + g k)).sum = (ks.map f).sum + (ks.map g).sum := by
  induction ks with
  | nil => simp
  | cons a ks ih => simp only [List.map_cons, List.sum_cons, ih]; abel

/-- Summing a single-point indicator over a duplicate-free list containing
the point yields the value at the point. -/
lemma sum_map_single {K M : Type} [DecidableEq K] [AddCommMonoid M]
    (ks : List K) (x : K) (c : M) (hnd : ks.Nodup) (hx : x ∈ ks) :
    (ks.map (fun k => if x = k then c else 0)).sum = c := by
  induction ks with
  | nil => cases hx
  | cons a ks ih =>
    rcases List.nodup_cons.mp hnd with ⟨ha, hnd2⟩
    rcases List.mem_cons.mp hx with h | h
    · subst h
      have hz : (ks.map (fun k => if x = k then c else 0)).sum = 0 :=
        List.sum_eq_zero (by
          intro y hy
          rcases List.mem_map.mp hy with ⟨k, hk, hky⟩
          have : x ≠ k := fun he => ha (he ▸ hk)
          simpa [this] using hky.symm)
      simp [hz]
    · have hxa : x ≠ a := fun he => ha (he ▸ h)
      simp [hxa, ih hnd2 h]

/-- Partitioning a sum over the fibers of a key: if ks lists each key value
of l exactly once, the grouped sums add up to the total sum. -/
lemma fiber_sum {α K M : Type} [DecidableEq K] [AddCommMonoid M]
    (key : α → K) (g : α → M) :
    ∀ (l : List α) (ks : List K), ks.Nodup → (∀ a ∈ l, key a ∈ ks) →
      (ks.map (fun k =>
        ((l.filter (fun a => decide (key a = k))).map g).sum)).sum = (l.map g).sum := by
  intro l
  induction l with
  | nil =>
    intro ks _ _
    simpa using sum_map_zero_fn ks
  | cons a l ih =>
    intro ks hnd hall
    have h1 : ∀ k ∈ ks,
        (((a :: l).filter (fun x => decide (key x = k))).map g).sum
          = (if key a = k then g a else 0)
            + ((l.filter (fun x => decide (key x = k))).map g).sum := by
      intro k _
      by_cases h : key a = k <;> simp [List.filter_cons, h]
    rw [List.map_congr_left h1, sum_map_add_fn,
      sum_map_single ks (key a) (g a) hnd (hall a (List.mem_cons_self a l)),
      ih ks hnd (fun x hx => hall x (List.mem_cons_of_mem a hx))]
    simp

/-- The key of a row whose key is present is listed among the sorted
distinct keys. -/
lemma getD_mem_sortedKeys (key : Row → Option String) (rows : List Row)
    (r : Row) (hr : r ∈ rows) (hs : (key r).isSome) :
    (key r).getD "" ∈ sortedKeys (rows.filterMap key) := by
  have hsome : key r = some ((key r).getD "") := by
    cases h : key r with
    | none => rw [h] at hs; cases hs
    | some v => rfl
  unfold sortedKeys
  rw [List.mem_insertionSort, List.mem_dedup]
  exact List.mem_filterMap.mpr ⟨r, hr, hsome⟩

/-- The sorted distinct keys are duplicate free. -/
lemma sortedKeys_nodup (vals : List String) : (sortedKeys vals).Nodup :=
  ((List.perm_insertionSort strLe vals.dedup).nodup_iff).mpr (List.nodup_dedup vals)

/-- Filtering on one present key value factors through first dropping the
rows with a missing key. -/
lemma filter_some_factor (key : Row → Option String) (rows : List Row) (k : String) :
    rows.filter (fun r => decide (key r = some k))
      = (rows.filter (fun r => (key r).isSome)).filter
          (fun r => decide ((key r).getD "" = k)) := by
  rw [List.filter_filter]
  apply List.filter_congr
  intro r _
  cases h : key r <;> simp [h]

/-- The values of a grouped sum add up to the total amount of the rows
whose key is present. -/
lemma groupSum_values_sum (key : Row → Option String) (rows : List Row) :
    ((groupSum key rows).map (fun p => p.2)).sum
      = ((rows.filter (fun r => (key r).isSome)).map (fun r => r.amount)).sum := by
  unfold groupSum sumAmountBy
  rw [List.map_map]
  have h1 : ((sortedKeys (rows.filterMap key)).map
      ((fun p : String × ℚ => p.2) ∘ fun k => (k, ((rows.filter
        (fun r => decide (key r = some k))).map (fun r => r.amount)).sum)))
      = (sortedKeys (rows.filterMap key)).map (fun k =>
          (((rows.filter (fun r => (key r).isSome)).filter
            (fun r => decide ((key r).getD "" = k))).map (fun r => r.amount)).sum) := by
    apply List.map_congr_left
    intro k _
    simp only [Function.comp]
    rw [filter_some_factor]
  rw [h1]
  exact fiber_sum (fun r => (key r).getD "") (fun r => r.amount)
    (rows.filter (fun r => (key r).isSome)) (sortedKeys (rows.filterMap key))
    (sortedKeys_nodup _)
    (fun r hrm => getD_mem_sortedKeys key rows r
      (List.mem_of_mem_filter hrm) (by simpa using List.of_mem_filter hrm))

/-- The values of a grouped count add up to the number of rows whose key
is present. -/
lemma groupCount_values_sum (key : Row → Option String) (rows : List Row) :
    ((groupCount key rows).map (fun p => p.2)).sum
      = (rows.filter (fun r => (key r).isSome)).length := by
  unfold groupCount
  rw [List.map_map]
  have hlen : ∀ l : List Row, l.length = (l.map (fun _ => 1)).sum := by
    intro l; induction l with
    | nil => rfl
    | cons a l ih =>
      simp only [List.length_cons, List.map_cons, List.sum_cons, ih]
      omega
  have h1 : ((sortedKeys (rows.filterMap key)).map
      ((fun p : String × ℕ => p.2) ∘ fun k =>
        (k, (rows.filter (fun r => decide (key r = some k))).length)))
      = (sortedKeys (rows.filterMap key)).map (fun k =>
          (((rows.filter (fun r => (key r).isSome)).filter
            (fun r => decide ((key r).getD "" = k))).map (fun _ => 1)).sum) := by
    apply List.map_congr_left
    intro k _
    simp only [Function.comp]
    rw [← filter_some_factor, hlen]
  rw [h1, fiber_sum (fun r => (key r).getD "") (fun _ => 1)
    (rows.filter (fun r => (key r).isSome)) (sortedKeys (rows.filterMap key))
    (sortedKeys_nodup _)
    (fun r hrm => getD_mem_sortedKeys key rows r
      (List.mem_of_mem_filter hrm) (by simpa using List.of_mem_filter hrm)),
    ← hlen]

/-- A sum over all rows splits into the rows with a present key and the
rows with a missing key. -/
lemma sum_split_isSome (key : Row → Option String) (rows : List Row) :
    ((rows.filter (fun r => (key r).isSome)).map (fun r => r.amount)).sum
      + ((rows.filter (fun r => (key r).isNone)).map (fun r => r.amount)).sum
      = totalRevenue rows := by
  unfold totalRevenue
  induction rows with
  | nil => simp
  | cons a rows ih =>
    cases h : key a <;> simp [List.filter_cons, h] <;> linarith [ih]

/-- A row count splits the same way. -/
lemma length_split_isSome (key : Row → Option String) (rows : List Row) :
    (rows.filter (fun r => (key r).isSome)).length
      + (rows.filter (fun r => (key r).isNone)).length
      = totalTransactions rows := by
  unfold totalTransactions
  induction rows with
  | nil => simp
  | cons a rows ih =>
    cases h : key a <;> simp [List.filter_cons, h] <;> omega

/-! Claims C1 and C10: how grouped aggregates treat rows with missing
keys. -/

/-- Claim C1, counterexample: on a table with a row whose product category
is missing, the total revenue (100) differs from the sum of the
per-category revenue sums (0), because groupby silently drops the row.
So the claimed identity does not hold for every input table. -/
theorem C1_counterexample :
    totalRevenue missingCatRows = 100
      ∧ ((revenueByCategory missingCatRows).map (fun p => p.2)).sum = 0
      ∧ (100 : ℚ) ≠ 0 := by
  refine ⟨?_, ?_, by norm_num⟩
  · norm_num [totalRevenue, missingCatRows]
  · simp [revenueByCategory, missingCatRows, groupSum, sortedKeys,
      List.insertionSort]

/-- Claim C1 (amended): for every input table in which every row has a
present product category, the total revenue equals the sum of the
per-category revenue sums; grouping then neither loses nor double-counts
rows.  (Rows with a missing category are dropped by the grouping, see the
counterexample and claim C10.) -/
theorem C1_total_eq_sum_of_category_sums (rows : List Row)
    (h : ∀ r ∈ rows, (r.category).isSome) :
    totalRevenue rows = ((revenueByCategory rows).map (fun p => p.2)).sum := by
  have hperm : (revenueByCategory rows).Perm (groupSum (fun r => r.category) rows) :=
    List.perm_insertionSort descSnd _
  rw [(hperm.map (fun p : String × ℚ => p.2)).sum_eq, groupSum_values_sum,
    List.filter_eq_self.mpr h]
  rfl

/-- Witness for C1 at the three-row scenario table. -/
theorem C1_witness :
    totalRevenue scenarioRows
      = ((revenueByCategory scenarioRows).map (fun p => p.2)).sum :=
  C1_total_eq_sum_of_category_sums scenarioRows (by decide)

/-- Claim C10: every grouped aggregate (revenue by category, country,
user and payment method, and the frequent-shopper counts) excludes the
rows whose grouping key is missing, while the global scalars include
them: the grouped sums plus the amounts of the dropped rows give the
line 34 total, the grouped counts plus the dropped rows give the line 40
transaction count, and the denominator of the country revenue share
(line 153) is the sum of the per-country revenues, which falls short of
the overall total by exactly the amounts of the rows with a missing
country. -/
theorem C10_grouped_aggregates_drop_missing_keys (rows : List Row) :
    (((groupSum (fun r => r.category) rows).map (fun p => p.2)).sum
        + ((rows.filter (fun r => (r.category).isNone)).map (fun r => r.amount)).sum
      = totalRevenue rows)
    ∧ (((groupSum (fun r => r.country) rows).map (fun p => p.2)).sum
        + ((rows.filter (fun r => (r.country).isNone)).map (fun r => r.amount)).sum
      = totalRevenue rows)
    ∧ (((groupSum (fun r => r.user) rows).map (fun p => p.2)).sum
        + ((rows.filter (fun r => (r.user).isNone)).map (fun r => r.amount)).sum
      = totalRevenue rows)
    ∧ (((groupSum (fun r => r.payment) rows).map (fun p => p.2)).sum
        + ((rows.filter (fun r => (r.payment).isNone)).map (fun r => r.amount)).sum
      = totalRevenue rows)
    ∧ (((groupCount (fun r => r.user) rows).map (fun p => p.2)).sum
        + (rows.filter (fun r => (r.user).isNone)).length
      = totalTransactions rows)
    ∧ (shareDenominator rows
        + ((rows.filter (fun r => (r.country).isNone)).map (fun r => r.amount)).sum
      = totalRevenue rows) := by
  refine ⟨?_, ?_, ?_, ?_, ?_, ?_⟩
  · rw [groupSum_values_sum]; exact sum_split_isSome _ rows
  · rw [groupSum_values_sum]; exact sum_split_isSome _ rows
  · rw [groupSum_values_sum]; exact sum_split_isSome _ rows
  · rw [groupSum_values_sum]; exact sum_split_isSome _ rows
  · rw [groupCount_values_sum]; exact length_split_isSome _ rows
  · show ((countryRevenue rows).map (fun p => p.2)).sum + _ = _
    unfold countryRevenue
    rw [groupSum_values_sum]; exact sum_split_isSome _ rows

/-! Claim C2: age brackets. -/

/-- Claim C2, counterexample: the integer age -1 is non-null but maps to
no bracket, because the lowest pd.cut bin starts at 0; so the assignment
is not total on all non-null integer ages. -/
theorem C2_counterexample : ageCut (some (-1)) = none := by decide

/-- Claim C2 (amended): every non-null integer age that is at least 0
maps to exactly one of the five brackets (the result type carries at most
one bracket), and the boundary ages map as specified: 19 to Below 20,
20 and 29 to 20s, 30 and 39 to 30s, 40 and 49 to 40s, 50 to 50+.
A negative age maps to no bracket (see the counterexample). -/
theorem C2_age_brackets_total_on_nonnegative :
    (∀ a : ℤ, 0 ≤ a → (ageCut (some a)).isSome)
    ∧ ageCut (some 19) = some .below20
    ∧ ageCut (some 20) = some .in20s
    ∧ ageCut (some 29) = some .in20s
    ∧ ageCut (some 30) = some .in30s
    ∧ ageCut (some 39) = some .in30s
    ∧ ageCut (some 40) = some .in40s
    ∧ ageCut (some 49) = some .in40s
    ∧ ageCut (some 50) = some .fiftyPlus := by
  refine ⟨?_, by decide, by decide, by decide, by decide, by decide,
    by decide, by decide, by decide⟩
  intro a ha
  have h0 : ¬ a < 0 := not_lt.mpr ha
  by_cases h1 : a ≤ 19
  · simp [ageCut, h0, h1]
  · by_cases h2 : a ≤ 29
    · simp [ageCut, h0, h1, h2]
    · by_cases h3 : a ≤ 39
      · simp [ageCut, h0, h1, h2, h3]
      · by_cases h4 : a ≤ 49 <;> simp [ageCut, h0, h1, h2, h3, h4]

/-- Witness for C2 at age 25. -/
theorem C2_witness : (0 : ℤ) ≤ 25 ∧ (ageCut (some 25)).isSome :=
  ⟨by decide, C2_age_brackets_total_on_nonnegative.1 25 (by decide)⟩

/-! Claim C6: column-name normalization. -/

/-- Claim C6, counterexample: the code replaces a hyphen with an
underscore rather than deleting it: on the raw name a-b the code yields
a_b while the claimed stripping yields ab. -/
theorem C6_counterexample :
    normalizeColumn ['a', '-', 'b'] = ['a', '_', 'b']
      ∧ claimNormalizeColumn ['a', '-', 'b'] = ['a', 'b']
      ∧ normalizeColumn ['a', '-', 'b'] ≠ claimNormalizeColumn ['a', '-', 'b'] := by
  refine ⟨by decide, by decide, by decide⟩

/-- Claim C6 (amended): normalization replaces every space and every
hyphen with an underscore (it does not delete hyphens) and removes
parenthesis characters, and changes nothing else: the result contains no
space, parenthesis or hyphen, its length is the input length minus the
number of parenthesis characters, and its underscore count is the input
count of underscores plus spaces plus hyphens. -/
theorem C6_normalization_replaces_and_strips (cs : List Char) :
    (' ' ∉ normalizeColumn cs)
    ∧ ('(' ∉ normalizeColumn cs)
    ∧ (')' ∉ normalizeColumn cs)
    ∧ ('-' ∉ normalizeColumn cs)
    ∧ (normalizeColumn cs).length + cs.count '(' + cs.count ')' = cs.length
    ∧ (normalizeColumn cs).count '_'
        = cs.count '_' + cs.count ' ' + cs.count '-' := by
  induction cs with
  | nil => refine ⟨by simp [normalizeColumn], by simp [normalizeColumn],
      by simp [normalizeColumn], by simp [normalizeColumn], rfl, rfl⟩
  | cons c cs ih =>
    obtain ⟨ih1, ih2, ih3, ih4, ih5, ih6⟩ := ih
    by_cases hsp : c = ' '
    · subst hsp
      have hcons : normalizeColumn (' ' :: cs) = '_' :: normalizeColumn cs := by
        simp [normalizeColumn, List.filterMap_cons, normalizeChar]
      refine ⟨?_, ?_, ?_, ?_, ?_, ?_⟩ <;>
        simp only [hcons, List.mem_cons, List.length_cons, List.count_cons] <;>
        simp [ih1, ih2, ih3, ih4] <;> omega
    · by_cases hlp : c = '('
      · subst hlp
        have hcons : normalizeColumn ('(' :: cs) = normalizeColumn cs := by
          simp [normalizeColumn, List.filterMap_cons, normalizeChar]
        refine ⟨?_, ?_, ?_, ?_, ?_, ?_⟩ <;>
          simp only [hcons, List.length_cons, List.count_cons] <;>
          simp [ih1, ih2, ih3, ih4] <;> omega
      · by_cases hrp : c = ')'
        · subst hrp
          have hcons : normalizeColumn (')' :: cs) = normalizeColumn cs := by
            simp [normalizeColumn, List.filterMap_cons, normalizeChar]
          refine ⟨?_, ?_, ?_, ?_, ?_, ?_⟩ <;>
            simp only [hcons, List.length_cons, List.count_cons] <;>
            simp [ih1, ih2, ih3, ih4] <;> omega
        · by_cases hhy : c = '-'
          · subst hhy
            have hcons : normalizeColumn ('-' :: cs) = '_' :: normalizeColumn cs := by
              simp [normalizeColumn, List.filterMap_cons, normalizeChar]
            refine ⟨?_, ?_, ?_, ?_, ?_, ?_⟩ <;>
              simp only [hcons, List.mem_cons, List.length_cons, List.count_cons] <;>
              simp [ih1, ih2, ih3, ih4] <;> omega
          · have hcons : normalizeColumn (c :: cs) = c :: normalizeColumn cs := by
              simp [normalizeColumn, List.filterMap_cons, normalizeChar,
                hsp, hlp, hrp, hhy]
            refine ⟨?_, ?_, ?_, ?_, ?_, ?_⟩
            · rw [hcons]
              intro hmem
              rcases List.mem_cons.mp hmem with h | h
              · exact hsp h.symm
              · exact ih1 h
            · rw [hcons]
              intro hmem
              rcases List.mem_cons.mp hmem with h | h
              · exact hlp h.symm
              · exact ih2 h
            · rw [hcons]
              intro hmem
              rcases List.mem_cons.mp hmem with h | h
              · exact hrp h.symm
              · exact ih3 h
            · rw [hcons]
              intro hmem
              rcases List.mem_cons.mp hmem with h | h
              · exact hhy h.symm
              · exact ih4 h
            · rw [hcons]
              simp only [List.length_cons, List.count_cons, beq_iff_eq,
                hlp, hrp, if_false]
              omega
            · rw [hcons]
              by_cases hu : c = '_' <;>
                simp [List.count_cons, beq_iff_eq, hu, hsp, hhy] <;> omega

/-! Claim C8: missing input file. -/

/-- Claim C8: when the source file is absent the engine returns a
user-facing error message and produces no report at all (the error branch
carries no aggregate), and when the file is present the full report is
produced; the two outcomes are exclusive by the result type. -/
theorem C8_missing_file_aborts_cleanly
    (filePath : String) (fileSystem : String → Option (List Row)) :
    (fileSystem filePath = none →
      analyze filePath fileSystem
        = .error ("Error: The file " ++ filePath ++ " was not found."))
    ∧ (∀ rows, fileSystem filePath = some rows →
      analyze filePath fileSystem = .ok (mkReport rows)) := by
  constructor
  · intro h; simp [analyze, h]
  · intro rows h; simp [analyze, h]

/-- Witness for C8: an empty file system and the scripted default path. -/
theorem C8_witness :
    analyze "ecommerce_transactions.csv" (fun _ => none)
      = .error "Error: The file ecommerce_transactions.csv was not found." :=
  (C8_missing_file_aborts_cleanly "ecommerce_transactions.csv" (fun _ => none)).1 rfl

/-! Claims C3 and C9: the growth series and division by zero. -/

/-- Counting a predicate and its negation partitions the length. -/
lemma countP_not_add {α : Type} (p : α → Bool) (l : List α) :
    l.countP (fun a => !p a) + l.countP p = l.length := by
  induction l with
  | nil => rfl
  | cons a l ih =>
    rw [List.countP_cons, List.countP_cons]
    by_cases hp : p a = true <;> simp [hp] <;> omega

/-- A growth entry is NaN exactly when both the previous and the current
month revenue are zero (the first shifted entry is NaN as well and is
likewise dropped; the model series starts at the second month). -/
lemma growthStep_isNan (a b : ℚ) :
    (growthStep a b).isNan = (decide (a = 0) && decide (b = 0)) := by
  unfold growthStep
  by_cases ha : a = 0
  · by_cases hb : b = 0
    · simp [ha, hb, ExtVal.isNan]
    · by_cases hpos : 0 < b <;> simp [ha, hb, hpos, ExtVal.isNan]
  · simp [ha, ExtVal.isNan]

/-- Claim C3, counterexample: on gapRows the data contains 2 distinct
months, so the claim predicts 2 - 1 = 1 growth rows, but the displayed
series has 2 rows: resample also emits the empty February (revenue 0),
giving a -100 percent entry, and the March entry divides by the zero
February revenue, giving +inf, which dropna does not remove. -/
theorem C3_counterexample :
    distinctMonths gapRows = 2
      ∧ growthDisplayed gapRows = [.val (-100), .inf]
      ∧ (growthDisplayed gapRows).length ≠ distinctMonths gapRows - 1 := by
  have hm : monthlyRevenue gapRows = [100, 0, 200] := by
    have hr3 : List.range 3 = [0, 1, 2] := by decide
    simp +decide [monthlyRevenue, monthIdxs, monthIdx, gapRows, List.filter_cons, hr3]
  refine ⟨by decide, ?_, ?_⟩
  · simp only [growthDisplayed, growthRaw, growthPairs, hm]
    norm_num [growthStep, ExtVal.isNan, List.filter_cons]
  · simp only [growthDisplayed, growthRaw, growthPairs, hm]
    norm_num [growthStep, ExtVal.isNan, List.filter_cons]
    all_goals decide

/-- Claim C3 (amended): the growth series excludes the first month and is
indexed by consecutive calendar months from the earliest to the latest
transaction month (months with no data count, with revenue 0), not by the
distinct months present in the data; each entry with a nonzero previous
month revenue equals (current - previous) / previous * 100; an entry
whose previous and current revenues are both zero is NaN and is dropped
by dropna, so the displayed series has (spanned months - 1) rows minus
the number of such zero-over-zero pairs; no NaN remains in the output. -/
theorem C3_growth_series_length_and_formula (rows : List Row) :
    ((growthDisplayed rows).length
        + (growthPairs rows).countP (fun p => decide (p.1 = 0) && decide (p.2 = 0))
      = (monthlyRevenue rows).length - 1)
    ∧ (∀ v ∈ growthDisplayed rows, v.isNan = false)
    ∧ (∀ p ∈ growthPairs rows, p.1 ≠ 0 →
        growthStep p.1 p.2 = .val ((p.2 - p.1) / p.1 * 100)) := by
  refine ⟨?_, ?_, ?_⟩
  · have h1 : (growthDisplayed rows).length
        = (growthRaw rows).countP (fun v => !v.isNan) := by
      unfold growthDisplayed
      rw [List.countP_eq_length_filter]
    have h2 : (growthRaw rows).countP (fun v => !v.isNan)
        = (growthPairs rows).countP
            (fun p => !(decide (p.1 = 0) && decide (p.2 = 0))) := by
      unfold growthRaw
      rw [List.countP_map]
      apply List.countP_congr
      intro p _
      simp [Function.comp, growthStep_isNan]
    have h3 : (growthPairs rows).length = (monthlyRevenue rows).length - 1 := by
      unfold growthPairs
      rw [List.length_zip, List.length_tail]
      omega
    have h4 : (growthPairs rows).countP
          (fun p => !(decide (p.1 = 0) && decide (p.2 = 0)))
        + (growthPairs rows).countP
            (fun p => decide (p.1 = 0) && decide (p.2 = 0))
        = (growthPairs rows).length :=
      countP_not_add (fun p => decide (p.1 = 0) && decide (p.2 = 0)) (growthPairs rows)
    rw [h1, h2]
    omega
  · intro v hv
    have := List.of_mem_filter hv
    simpa using this
  · intro p _ hp
    unfold growthStep
    rw [if_neg hp]

/-- Witness for C3 at the gap table: the March pair has previous revenue
0 and the January-February pair has previous revenue 100, so the formula
applies to it. -/
theorem C3_witness :
    ((100 : ℚ), (0 : ℚ)) ∈ growthPairs gapRows
      ∧ growthStep 100 0 = .val (((0 : ℚ) - 100) / 100 * 100) := by
  have hm : monthlyRevenue gapRows = [100, 0, 200] := by
    have hr3 : List.range 3 = [0, 1, 2] := by decide
    simp +decide [monthlyRevenue, monthIdxs, monthIdx, gapRows, List.filter_cons, hr3]
  have hmem : ((100 : ℚ), (0 : ℚ)) ∈ growthPairs gapRows := by
    simp [growthPairs, hm]
  exact ⟨hmem,
    (C3_growth_series_length_and_formula gapRows).2.2 (100, 0) hmem (by norm_num)⟩

/-- Claim C9, counterexample: on noUserRows the CLV of the US is
100 / 0 = +inf, a non-finite value, and the displayed clv_by_country
table still contains that row: nothing filters or flags it (the code has
no dropna and no flag on this path), so the affected row is not surfaced
as explicitly undefined. -/
theorem C9_counterexample :
    clvByCountry noUserRows = [⟨"US", 100, 0, .inf⟩]
      ∧ (ExtVal.inf).isFinite = false := by
  constructor
  · simp +decide [clvByCountry, noUserRows, countryKeys, sortedKeys,
      List.insertionSort, List.filter_cons, divExt]
    all_goals norm_num
  · rfl

/-- Claim C9 (amended): a division by zero yields a non-finite value: a
country with zero distinct customers always gets a non-finite CLV, and a
growth entry with zero previous-month revenue is NaN or infinite.  Only
NaN values are removed from the growth series (dropna); infinities pass
through to the display, and the CLV table is never filtered at all: it
always has exactly one row per country present in the data, whatever
values it contains. -/
theorem C9_nonfinite_values_not_all_filtered (rows : List Row) :
    (∀ v ∈ growthRaw rows, v.isNan = false → v ∈ growthDisplayed rows)
    ∧ (∀ v ∈ growthDisplayed rows, v.isNan = false)
    ∧ (∀ p ∈ growthPairs rows, p.1 = 0 → (growthStep p.1 p.2).isFinite = false)
    ∧ ((clvByCountry rows).length = (countryKeys rows).length)
    ∧ (∀ e ∈ clvByCountry rows, e.unique_customers = 0 →
        e.clv.isFinite = false) := by
  refine ⟨?_, ?_, ?_, ?_, ?_⟩
  · intro v hv hnan
    exact List.mem_filter.mpr ⟨hv, by simp [hnan]⟩
  · intro v hv
    simpa using List.of_mem_filter hv
  · intro p _ hp
    unfold growthStep
    by_cases hc : p.2 = 0
    · simp [hp, hc, ExtVal.isFinite]
    · by_cases hpos : 0 < p.2 <;> simp [hp, hc, hpos, ExtVal.isFinite]
  · unfold clvByCountry
    rw [List.length_insertionSort, List.length_map]
  · intro e he hu
    unfold clvByCountry at he
    rw [List.mem_insertionSort] at he
    rcases List.mem_map.mp he with ⟨c, _, hc⟩
    have huniq := hu
    rw [← hc] at huniq
    simp only at huniq
    rw [← hc]
    simp only
    rw [huniq]
    unfold divExt
    have hz : ((0 : ℕ) : ℚ) = 0 := by norm_num
    by_cases hr : ((rows.filter (fun r => decide (r.country = some c))).map
        (fun r => r.amount)).sum = 0
    · simp [hz, hr, ExtVal.isFinite]
    · by_cases hpos : 0 < ((rows.filter (fun r => decide (r.country = some c))).map
          (fun r => r.amount)).sum <;>
        simp [hz, hr, hpos, ExtVal.isFinite]

/-- Witness for C9: on the gap table the +inf March entry survives into
the displayed growth series. -/
theorem C9_witness : ExtVal.inf ∈ growthDisplayed gapRows := by
  have hm : monthlyRevenue gapRows = [100, 0, 200] := by
    have hr3 : List.range 3 = [0, 1, 2] := by decide
    simp +decide [monthlyRevenue, monthIdxs, monthIdx, gapRows, List.filter_cons, hr3]
  have hmem : ExtVal.inf ∈ growthRaw gapRows := by
    simp [growthRaw, growthPairs, hm]
    norm_num [growthStep]
  exact (C9_nonfinite_values_not_all_filtered gapRows).1 .inf hmem rfl

/-! Claim C4: the three-row scenario of spec section 8. -/

/-- Claim C4: on the three-row scenario table, total revenue is 350;
monthly revenue is January 150 and February 200; the February growth rate
is (200 - 150) / 150 * 100 percent, i.e. the 100/3 that displays as
33.33; revenue by category is Books 300 and Toys 50 (descending); the
top-countries table sorted descending is UK 200 then US 150; CLV is
US = 150 / 2 = 75 and UK = 200 / 1 = 200, displayed in descending CLV
order. -/
theorem C4_scenario :
    totalRevenue scenarioRows = 350
    ∧ monthlyRevenue scenarioRows = [150, 200]
    ∧ growthDisplayed scenarioRows = [.val (((200 : ℚ) - 150) / 150 * 100)]
    ∧ revenueByCategory scenarioRows = [("Books", 300), ("Toys", 50)]
    ∧ topCountriesRevenue scenarioRows = [("UK", 200), ("US", 150)]
    ∧ clvByCountry scenarioRows
        = [⟨"UK", 200, 1, .val 200⟩, ⟨"US", 150, 2, .val 75⟩]
    ∧ ((200 : ℚ) - 150) / 150 * 100 = 100 / 3 := by
  have hm : monthlyRevenue scenarioRows = [150, 200] := by
    have hr2 : List.range 2 = [0, 1] := by decide
    simp +decide [monthlyRevenue, monthIdxs, monthIdx, scenarioRows,
      scRow1, scRow2, scRow3, List.filter_cons, hr2]
    all_goals norm_num
  refine ⟨?_, hm, ?_, ?_, ?_, ?_, by norm_num⟩
  · norm_num [totalRevenue, scenarioRows, scRow1, scRow2, scRow3]
  · simp only [growthDisplayed, growthRaw, growthPairs, hm]
    norm_num [growthStep, ExtVal.isNan, List.filter_cons]
  · simp +decide [revenueByCategory, scenarioRows, scRow1, scRow2, scRow3,
      groupSum, sortedKeys, sumAmountBy, List.insertionSort,
      List.orderedInsert, descSnd, strLe, strLt, charListLt, List.filter_cons]
    all_goals norm_num [List.insertionSort, List.orderedInsert, descSnd]
  · simp +decide [topCountriesRevenue, scenarioRows, scRow1, scRow2, scRow3,
      groupSum, sortedKeys, sumAmountBy, List.insertionSort,
      List.orderedInsert, descSnd, strLe, strLt, charListLt, List.filter_cons]
    all_goals norm_num [List.insertionSort, List.orderedInsert, descSnd]
  · simp +decide [clvByCountry, scenarioRows, scRow1, scRow2, scRow3,
      countryKeys, sortedKeys, List.insertionSort, List.orderedInsert,
      clvLe, clvGeB, divExt, strLe, strLt, charListLt, List.filter_cons]
    all_goals norm_num [List.insertionSort, List.orderedInsert, clvLe, clvGeB,
      divExt]

/-! Claim C7: which operations mutate the working dataframe. -/

/-- Claim C7, counterexample: the top-5-categories-per-country operation
(line 162) also changes the working dataframe - it converts the Country
column to the categorical dtype - so the age-bracket derivation is not
the only operation that changes the working table. -/
theorem C7_counterexample :
    (topCategoriesByCountryOp ⟨[], false, false⟩).2 ≠ (⟨[], false, false⟩ : Table)
      ∧ (topCategoriesByCountryOp ⟨[], false, false⟩).2 = (⟨[], false, true⟩ : Table) := by
  constructor
  · intro h
    have := congrArg Table.countryCategorical h
    simp [topCategoriesByCountryOp] at this
  · rfl

/-- Claim C7 (amended): every aggregate is a pure function of the working
dataframe, and exactly two operations change that dataframe: the
age-bracket derivation adds the Age_Group column (line 93), and the
top-5-categories step converts the Country column to the categorical
dtype (line 162), a change visible to later operations.  All sixteen
other operations return the dataframe unchanged. -/
theorem C7_only_two_ops_mutate_the_table (t : Table) :
    (totalRevenueOp t).2 = t
    ∧ (avgPurchaseValueOp t).2 = t
    ∧ (totalTransactionsOp t).2 = t
    ∧ (revenueByCategoryOp t).2 = t
    ∧ (topCountriesRevenueOp t).2 = t
    ∧ (monthlyRevenueOp t).2 = t
    ∧ (revenueByAgeGroupOp t).2 = { t with ageGroupAdded := true }
    ∧ (topCustomersOp t).2 = t
    ∧ (mostFrequentShoppersOp t).2 = t
    ∧ (averageAgeOp t).2 = t
    ∧ (dailyAverageSalesOp t).2 = t
    ∧ (revenueByPaymentMethodOp t).2 = t
    ∧ (peakShoppingDayOp t).2 = t
    ∧ (countryRevenueShareOp t).2 = t
    ∧ (topCategoriesByCountryOp t).2 = { t with countryCategorical := true }
    ∧ (growthSeriesOp t).2 = t
    ∧ (popularCategoriesOp t).2 = t
    ∧ (clvByCountryOp t).2 = t :=
  ⟨rfl, rfl, rfl, rfl, rfl, rfl, rfl, rfl, rfl, rfl, rfl, rfl, rfl, rfl,
    rfl, rfl, rfl, rfl⟩

/-! Rank lemmas: the method-first descending ranks within one country
block are distinct and at least 1, so at most five of them are ≤ 5. -/

/-- Counts of two disjoint predicates that both imply a third are,
together, a lower bound of the count of the third. -/
lemma countP_add_countP_le_of_disjoint {α : Type} (p q r : α → Bool) :
    ∀ l : List α, (∀ x ∈ l, p x = true → r x = true) →
      (∀ x ∈ l, q x = true → r x = true) →
      (∀ x ∈ l, ¬(p x = true ∧ q x = true)) →
      l.countP p + l.countP q ≤ l.countP r := by
  intro l
  induction l with
  | nil => intro _ _ _; simp
  | cons a l ih =>
    intro hp hq hd
    have ihl := ih (fun x hx => hp x (List.mem_cons_of_mem a hx))
      (fun x hx => hq x (List.mem_cons_of_mem a hx))
      (fun x hx => hd x (List.mem_cons_of_mem a hx))
    rw [List.countP_cons, List.countP_cons, List.countP_cons]
    by_cases hpa : p a = true
    · have hra := hp a (List.mem_cons_self a l) hpa
      have hqa : ¬ q a = true := fun h => hd a (List.mem_cons_self a l) ⟨hpa, h⟩
      simp [hpa, hra, hqa]
      omega
    · by_cases hqa : q a = true
      · have hra := hq a (List.mem_cons_self a l) hqa
        simp [hpa, hqa, hra]
        omega
      · by_cases hra : r a = true <;> simp [hpa, hqa, hra] <;> omega

/-- Ranks are at least 1. -/
lemma rankAt_pos (l : List ℚ) (i : ℕ) : 1 ≤ rankAt l i := by
  unfold rankAt
  omega

/-- The element at position i contributes one more equal-count over the
whole list than over the prefix before i. -/
lemma countP_eq_take_lt (l : List ℚ) (i : ℕ) (hi : i < l.length) :
    (l.take i).countP (fun v => decide (v = l.getD i 0)) + 1
      ≤ l.countP (fun v => decide (v = l.getD i 0)) := by
  have hv : l.getD i 0 = l[i] := List.getD_eq_getElem l 0 hi
  generalize hval : l.getD i 0 = v
  rw [hval] at hv
  conv_rhs => rw [← List.take_append_drop i l]
  rw [List.countP_append, List.drop_eq_getElem_cons hi, List.countP_cons]
  have hd : decide (l[i] = v) = true := by rw [hv]; simp
  rw [hd, if_pos rfl]
  omega

/-- Two positions never get the same method-first descending rank. -/
lemma rankAt_inj (l : List ℚ) (i j : ℕ) (hi : i < l.length) (hj : j < l.length)
    (hij : i < j) : rankAt l i ≠ rankAt l j := by
  rcases lt_trichotomy (l.getD i 0) (l.getD j 0) with hv | hv | hv
  · -- the value at i is smaller: position i has the larger rank
    have h1 := countP_eq_take_lt l j hj
    have h2 : l.countP (fun v => decide (l.getD j 0 < v))
          + l.countP (fun v => decide (v = l.getD j 0))
        ≤ l.countP (fun v => decide (l.getD i 0 < v)) := by
      apply countP_add_countP_le_of_disjoint
      · intro x _ hx
        simp only [decide_eq_true_eq] at hx ⊢
        exact lt_trans hv hx
      · intro x _ hx
        simp only [decide_eq_true_eq] at hx ⊢
        rw [hx]
        exact hv
      · intro x _ hx
        obtain ⟨hx1, hx2⟩ := hx
        simp only [decide_eq_true_eq] at hx1 hx2
        rw [hx2] at hx1
        exact lt_irrefl _ hx1
    unfold rankAt
    omega
  · -- equal values: the earlier position has the smaller rank
    have hG : l.countP (fun v => decide (l.getD i 0 < v))
        = l.countP (fun v => decide (l.getD j 0 < v)) := by rw [hv]
    obtain ⟨k, hk⟩ : ∃ k, j - i = k + 1 := ⟨j - i - 1, by omega⟩
    have hsplit : l.take j = l.take i ++ (l[i] :: (l.drop (i + 1)).take k) := by
      rw [show j = i + (j - i) from by omega, List.take_add,
        List.drop_eq_getElem_cons hi, hk, List.take_succ_cons]
    have hiv : l[i] = l.getD j 0 := by
      rw [← List.getD_eq_getElem l 0 hi]
      exact hv
    have hE : (l.take i).countP (fun v => decide (v = l.getD j 0)) + 1
        ≤ (l.take j).countP (fun v => decide (v = l.getD j 0)) := by
      rw [hsplit, List.countP_append, List.countP_cons]
      have hd : decide (l[i] = l.getD j 0) = true := by rw [hiv]; simp
      rw [hd, if_pos rfl]
      omega
    have hE2 : (l.take i).countP (fun v => decide (v = l.getD i 0))
        = (l.take i).countP (fun v => decide (v = l.getD j 0)) := by rw [hv]
    unfold rankAt
    omega
  · -- the value at j is smaller: position j has the larger rank
    have h1 := countP_eq_take_lt l i hi
    have h2 : l.countP (fun v => decide (l.getD i 0 < v))
          + l.countP (fun v => decide (v = l.getD i 0))
        ≤ l.countP (fun v => decide (l.getD j 0 < v)) := by
      apply countP_add_countP_le_of_disjoint
      · intro x _ hx
        simp only [decide_eq_true_eq] at hx ⊢
        exact lt_trans hv hx
      · intro x _ hx
        simp only [decide_eq_true_eq] at hx ⊢
        rw [hx]
        exact hv
      · intro x _ hx
        obtain ⟨hx1, hx2⟩ := hx
        simp only [decide_eq_true_eq] at hx1 hx2
        rw [hx2] at hx1
        exact lt_irrefl _ hx1
    unfold rankAt
    omega

/-- The rank column of a block has no duplicates. -/
lemma rankFirstDesc_nodup (l : List ℚ) : (rankFirstDesc l).Nodup := by
  unfold rankFirstDesc
  apply List.Nodup.map_on
  · intro x hx y hy hxy
    rw [List.mem_range] at hx hy
    by_contra hne
    rcases lt_or_gt_of_ne hne with h | h
    · exact rankAt_inj l x y hx hy h hxy
    · exact rankAt_inj l y x hy hx h hxy.symm
  · exact List.nodup_range _

/-- At most five entries of a rank column are at most 5. -/
lemma rankFirstDesc_le_five (l : List ℚ) :
    (rankFirstDesc l).countP (fun v => decide (v ≤ 5)) ≤ 5 := by
  rw [List.countP_eq_length_filter]
  have hnd : ((rankFirstDesc l).filter (fun v => decide (v ≤ 5))).Nodup :=
    (rankFirstDesc_nodup l).filter _
  have hsub : ((rankFirstDesc l).filter (fun v => decide (v ≤ 5))).toFinset
      ⊆ Finset.Icc 1 5 := by
    intro x hx
    rw [List.mem_toFinset, List.mem_filter] at hx
    obtain ⟨hmem, hle⟩ := hx
    rw [Finset.mem_Icc]
    refine ⟨?_, by simpa using hle⟩
    unfold rankFirstDesc at hmem
    rcases List.mem_map.mp hmem with ⟨i, _, hik⟩
    rw [← hik]
    exact rankAt_pos l i
  calc ((rankFirstDesc l).filter (fun v => decide (v ≤ 5))).length
      = ((rankFirstDesc l).filter (fun v => decide (v ≤ 5))).toFinset.card :=
        (List.toFinset_card_of_nodup hnd).symm
    _ ≤ (Finset.Icc 1 5).card := Finset.card_le_card hsub
    _ = 5 := by rw [Nat.card_Icc]

/-! Counting rows per country in the ranked and filtered table. -/

/-- Every row of a country block carries that country. -/
lemma blockRows_country (t : Table) (c : String) :
    ∀ r ∈ blockRows t c, r.country = c := by
  intro r hr
  rcases List.mem_map.mp hr with ⟨p, _, hp⟩
  rw [← hp]

/-- Counting a rank predicate over a block is counting it over the rank
column. -/
lemma blockRows_countP_rank (t : Table) (c : String) (p : ℕ → Bool) :
    (blockRows t c).countP (fun r => p r.rank)
      = (rankFirstDesc (blockAmounts t c)).countP p := by
  unfold blockRows
  rw [List.countP_map]
  have hz : (((catsFor t c).zip (blockAmounts t c)).zip
        (rankFirstDesc (blockAmounts t c))).map Prod.snd
      = rankFirstDesc (blockAmounts t c) := by
    apply List.map_snd_zip
    rw [List.length_zip]
    unfold blockAmounts rankFirstDesc
    simp
  conv_rhs => rw [← hz, List.countP_map]
  rfl

/-- Per-country bound for one block of the ranked table. -/
lemma blockRows_count_le (t : Table) (c c0 : String) :
    (blockRows t c).countP
        (fun r => decide (r.country = c0) && decide (r.rank ≤ 5))
      ≤ if c = c0 then 5 else 0 := by
  by_cases hc : c = c0
  · subst hc
    rw [if_pos rfl]
    have hmono : (blockRows t c).countP
          (fun r => decide (r.country = c) && decide (r.rank ≤ 5))
        ≤ (blockRows t c).countP (fun r => decide (r.rank ≤ 5)) := by
      apply List.countP_mono_left
      intro x _ hx
      exact (Bool.and_eq_true_iff.mp hx).2
    have hrank := blockRows_countP_rank t c (fun n => decide (n ≤ 5))
    have hfive := rankFirstDesc_le_five (blockAmounts t c)
    omega
  · rw [if_neg hc, Nat.le_zero, List.countP_eq_zero]
    intro r hr
    have hrc := blockRows_country t c r hr
    simp [hrc, hc]

/-- Counting over a flat map is summing the counts over the pieces. -/
lemma countP_flatMap {α β : Type} (f : α → List β) (p : β → Bool) :
    ∀ l : List α, (l.flatMap f).countP p = (l.map (fun a => (f a).countP p)).sum := by
  intro l
  induction l with
  | nil => rfl
  | cons a l ih =>
    rw [List.flatMap_cons, List.countP_append, List.map_cons, List.sum_cons, ih]

/-- A sum over a duplicate-free key list where each term is at most 5 at
one key and 0 elsewhere is at most 5. -/
lemma sum_map_le_five (f : String → ℕ) (c0 : String) :
    ∀ ks : List String, ks.Nodup → (∀ c ∈ ks, f c ≤ if c = c0 then 5 else 0) →
      (ks.map f).sum ≤ 5 := by
  intro ks
  induction ks with
  | nil => intro _ _; simp
  | cons a ks ih =>
    intro hnd hall
    rcases List.nodup_cons.mp hnd with ⟨hna, hnd2⟩
    rw [List.map_cons, List.sum_cons]
    by_cases ha : a = c0
    · have h1 : f a ≤ 5 := by
        have := hall a (List.mem_cons_self a ks)
        rwa [if_pos ha] at this
      have h2 : (ks.map f).sum = 0 := by
        apply List.sum_eq_zero
        intro x hx
        rcases List.mem_map.mp hx with ⟨c, hc, hcx⟩
        have hcc : ¬ c = c0 := fun he => hna ((he.trans ha.symm) ▸ hc)
        have := hall c (List.mem_cons_of_mem a hc)
        rw [if_neg hcc] at this
        omega
      omega
    · have h1 : f a ≤ 0 := by
        have := hall a (List.mem_cons_self a ks)
        rwa [if_neg ha] at this
      have h2 := ih hnd2 (fun c hc => hall c (List.mem_cons_of_mem a hc))
      omega

/-- Claim C5 (amended): for every working dataframe, the top-5 table has
at most 5 rows per country and is ordered by country ascending then
revenue descending; but with the categorical Country dtype set by line
162 (as on the actual code path) the underlying line 163 groupby is the
full cartesian product of the observed countries with the observed
categories: every such pair appears, a never-sold pair with revenue 0.
Ranks within a country are assigned on this category-ascending grouped
frame with rank(method=first), so ties are broken by category name
ascending, not by first occurrence in the original row order (see the
counterexample). -/
theorem C5_top5_per_country (t : Table) :
    (∀ c0 : String,
      ((top5PerCountry t).filter (fun r => decide (r.country = c0))).length ≤ 5)
    ∧ List.Sorted srowLe (top5PerCountry t)
    ∧ (t.countryCategorical = true →
        ∀ c ∈ countryKeys t.rows, ∀ g ∈ categoryKeys t.rows,
          ∃ r ∈ rankedSales t, r.country = c ∧ r.category = g
            ∧ r.amount = pairAmount t.rows c g) := by
  refine ⟨?_, ?_, ?_⟩
  · intro c0
    unfold top5PerCountry
    rw [← List.countP_eq_length_filter,
      (List.perm_insertionSort srowLe _).countP_eq, List.countP_filter]
    unfold rankedSales
    rw [countP_flatMap]
    apply sum_map_le_five _ c0 _ (sortedKeys_nodup _)
    intro c hc
    exact blockRows_count_le t c c0
  · exact List.sorted_insertionSort srowLe _
  · intro hcat c hc g hg
    have hgf : g ∈ catsFor t c := by
      unfold catsFor
      rw [hcat]
      exact hg
    rcases List.mem_iff_getElem.mp hgf with ⟨i, hilen, higet⟩
    have hlenA : (blockAmounts t c).length = (catsFor t c).length := by
      unfold blockAmounts
      rw [List.length_map]
    have hlenR : (rankFirstDesc (blockAmounts t c)).length
        = (catsFor t c).length := by
      unfold rankFirstDesc
      rw [List.length_map, List.length_range, hlenA]
    have hlenB : (blockRows t c).length = (catsFor t c).length := by
      unfold blockRows
      rw [List.length_map, List.length_zip, List.length_zip, hlenA, hlenR]
      omega
    have hiB : i < (blockRows t c).length := by
      rw [hlenB]
      exact hilen
    refine ⟨(blockRows t c)[i], List.mem_flatMap.mpr
      ⟨c, hc, List.getElem_mem hiB⟩, ?_⟩
    have hiz1 : i < ((catsFor t c).zip (blockAmounts t c)).length := by
      rw [List.length_zip]
      omega
    have hiz2 : i < (((catsFor t c).zip (blockAmounts t c)).zip
        (rankFirstDesc (blockAmounts t c))).length := by
      rw [List.length_zip, List.length_zip]
      omega
    have hiA : i < (blockAmounts t c).length := by omega
    have hiR : i < (rankFirstDesc (blockAmounts t c)).length := by omega
    have hgetB : (blockRows t c)[i]
        = ⟨c, (catsFor t c)[i], (blockAmounts t c)[i],
            (rankFirstDesc (blockAmounts t c))[i]⟩ := by
      unfold blockRows
      rw [List.getElem_map, List.getElem_zip, List.getElem_zip]
    have hgetA : (blockAmounts t c)[i] = pairAmount t.rows c ((catsFor t c)[i]) := by
      unfold blockAmounts
      rw [List.getElem_map]
    rw [hgetB]
    exact ⟨rfl, higet, by rw [hgetA, higet]⟩

/-- Witness for C5 on the counterexample table with the categorical flag
set (the state line 162 leaves): the pair (UK, a), a category never sold
in the UK, appears in the ranked frame with its zero revenue. -/
theorem C5_witness :
    ∃ r ∈ rankedSales ⟨top5Rows, false, true⟩,
      r.country = "UK" ∧ r.category = "a"
        ∧ r.amount = pairAmount top5Rows "UK" "a" :=
  (C5_top5_per_country ⟨top5Rows, false, true⟩).2.2 rfl "UK" (by decide)
    "a" (by decide)

/-- Claim C5, counterexample: on top5Rows (six US categories f, e, d, c,
b, a in that original order, all with revenue 10, and one UK category g)
the code keeps (UK, a) - a zero-revenue pair produced by the cartesian
groupby - and drops (US, f), because the rank tie-break follows the
category-ascending grouped frame; under the claimed behaviour (observed
categories only, ties by first occurrence in the original row order) the
kept pairs differ: (UK, a) is absent and (US, f) is kept. -/
theorem C5_counterexample :
    (("UK", "a") ∈ ((topCategoriesByCountryOp ⟨top5Rows, false, false⟩).1.map
        (fun r => (r.country, r.category))))
    ∧ (("UK", "a") ∉ ((specTop5PerCountry top5Rows).map
        (fun r => (r.country, r.category))))
    ∧ (("US", "f") ∈ ((specTop5PerCountry top5Rows).map
        (fun r => (r.country, r.category))))
    ∧ (("US", "f") ∉ ((topCategoriesByCountryOp ⟨top5Rows, false, false⟩).1.map
        (fun r => (r.country, r.category)))) := by
  have hr7 : List.range 7 = [0, 1, 2, 3, 4, 5, 6] := by decide
  have hcatsUK : catsFor ⟨top5Rows, false, true⟩ "UK"
      = ["a", "b", "c", "d", "e", "f", "g"] := by decide
  have hcatsUS : catsFor ⟨top5Rows, false, true⟩ "US"
      = ["a", "b", "c", "d", "e", "f", "g"] := by decide
  have hck : countryKeys top5Rows = ["UK", "US"] := by decide
  have hbaUK : blockAmounts ⟨top5Rows, false, true⟩ "UK"
      = [0, 0, 0, 0, 0, 0, 5] := by
    rw [blockAmounts, hcatsUK]
    simp +decide [pairAmount, top5Rows, List.filter_cons]
  have hbaUS : blockAmounts ⟨top5Rows, false, true⟩ "US"
      = [10, 10, 10, 10, 10, 10, 0] := by
    rw [blockAmounts, hcatsUS]
    simp +decide [pairAmount, top5Rows, List.filter_cons]
  have hrkUK : rankFirstDesc [0, 0, 0, 0, 0, 0, 5] = [2, 3, 4, 5, 6, 7, 1] := by
    norm_num [rankFirstDesc, rankAt, hr7, List.countP_cons, List.countP_nil,
      List.getD_cons_zero, List.getD_cons_succ]
  have hrkUS : rankFirstDesc [10, 10, 10, 10, 10, 10, 0]
      = [1, 2, 3, 4, 5, 6, 7] := by
    norm_num [rankFirstDesc, rankAt, hr7, List.countP_cons, List.countP_nil,
      List.getD_cons_zero, List.getD_cons_succ]
  have hblUK : blockRows ⟨top5Rows, false, true⟩ "UK"
      = [⟨"UK", "a", 0, 2⟩, ⟨"UK", "b", 0, 3⟩, ⟨"UK", "c", 0, 4⟩,
         ⟨"UK", "d", 0, 5⟩, ⟨"UK", "e", 0, 6⟩, ⟨"UK", "f", 0, 7⟩,
         ⟨"UK", "g", 5, 1⟩] := by
    rw [blockRows, hcatsUK, hbaUK, hrkUK]
    rfl
  have hblUS : blockRows ⟨top5Rows, false, true⟩ "US"
      = [⟨"US", "a", 10, 1⟩, ⟨"US", "b", 10, 2⟩, ⟨"US", "c", 10, 3⟩,
         ⟨"US", "d", 10, 4⟩, ⟨"US", "e", 10, 5⟩, ⟨"US", "f", 10, 6⟩,
         ⟨"US", "g", 0, 7⟩] := by
    rw [blockRows, hcatsUS, hbaUS, hrkUS]
    rfl
  have hcode : (rankedSales ⟨top5Rows, false, true⟩).filter
      (fun r => decide (r.rank ≤ 5))
      = [⟨"UK", "a", 0, 2⟩, ⟨"UK", "b", 0, 3⟩, ⟨"UK", "c", 0, 4⟩,
         ⟨"UK", "d", 0, 5⟩, ⟨"UK", "g", 5, 1⟩, ⟨"US", "a", 10, 1⟩,
         ⟨"US", "b", 10, 2⟩, ⟨"US", "c", 10, 3⟩, ⟨"US", "d", 10, 4⟩,
         ⟨"US", "e", 10, 5⟩] := by
    rw [rankedSales]
    have : Table.rows ⟨top5Rows, false, true⟩ = top5Rows := rfl
    rw [this, hck]
    rw [show (["UK", "US"].flatMap fun c => blockRows ⟨top5Rows, false, true⟩ c)
        = blockRows ⟨top5Rows, false, true⟩ "UK"
          ++ blockRows ⟨top5Rows, false, true⟩ "US" from by
      simp [List.flatMap_cons]]
    rw [hblUK, hblUS]
    decide
  have hspecUK : specCatsFirstSeen top5Rows "UK" = ["g"] := by decide
  have hspecUS : specCatsFirstSeen top5Rows "US"
      = ["f", "e", "d", "c", "b", "a"] := by decide
  have hsaUK : ["g"].map (pairAmount top5Rows "UK") = [5] := by
    simp +decide [pairAmount, top5Rows, List.filter_cons]
  have hsaUS : ["f", "e", "d", "c", "b", "a"].map (pairAmount top5Rows "US")
      = [10, 10, 10, 10, 10, 10] := by
    simp +decide [pairAmount, top5Rows, List.filter_cons]
  have hr6 : List.range 6 = [0, 1, 2, 3, 4, 5] := by decide
  have hr1 : List.range 1 = [0] := by decide
  have hskUK : rankFirstDesc [5] = [1] := by
    norm_num [rankFirstDesc, rankAt, hr1, List.countP_cons, List.countP_nil,
      List.getD_cons_zero, List.getD_cons_succ]
  have hskUS : rankFirstDesc [10, 10, 10, 10, 10, 10] = [1, 2, 3, 4, 5, 6] := by
    norm_num [rankFirstDesc, rankAt, hr6, List.countP_cons, List.countP_nil,
      List.getD_cons_zero, List.getD_cons_succ]
  have hsblUK : specBlockRows top5Rows "UK" = [⟨"UK", "g", 5, 1⟩] := by
    rw [specBlockRows, hspecUK, hsaUK, hskUK]
    rfl
  have hsblUS : specBlockRows top5Rows "US"
      = [⟨"US", "f", 10, 1⟩, ⟨"US", "e", 10, 2⟩, ⟨"US", "d", 10, 3⟩,
         ⟨"US", "c", 10, 4⟩, ⟨"US", "b", 10, 5⟩, ⟨"US", "a", 10, 6⟩] := by
    rw [specBlockRows, hspecUS, hsaUS, hskUS]
    rfl
  have hspec : (((countryKeys top5Rows).flatMap
      (fun c => specBlockRows top5Rows c)).filter
        (fun r => decide (r.rank ≤ 5)))
      = [⟨"UK", "g", 5, 1⟩, ⟨"US", "f", 10, 1⟩, ⟨"US", "e", 10, 2⟩,
         ⟨"US", "d", 10, 3⟩, ⟨"US", "c", 10, 4⟩, ⟨"US", "b", 10, 5⟩] := by
    rw [hck]
    rw [show (["UK", "US"].flatMap fun c => specBlockRows top5Rows c)
        = specBlockRows top5Rows "UK" ++ specBlockRows top5Rows "US" from by
      simp [List.flatMap_cons]]
    rw [hsblUK, hsblUS]
    decide
  have hTop : (topCategoriesByCountryOp ⟨top5Rows, false, false⟩).1
      = List.insertionSort srowLe ((rankedSales ⟨top5Rows, false, true⟩).filter
          (fun r => decide (r.rank ≤ 5))) := rfl
  refine ⟨?_, ?_, ?_, ?_⟩
  · rw [hTop, hcode,
      ((List.perm_insertionSort srowLe _).map
        (fun r : SRow => (r.country, r.category))).mem_iff]
    decide
  · rw [specTop5PerCountry, hspec,
      ((List.perm_insertionSort srowLe _).map
        (fun r : SRow => (r.country, r.category))).mem_iff]
    decide
  · rw [specTop5PerCountry, hspec,
      ((List.perm_insertionSort srowLe _).map
        (fun r : SRow => (r.country, r.category))).mem_iff]
    decide
  · rw [hTop, hcode,
      ((List.perm_insertionSort srowLe _).map
        (fun r : SRow => (r.country, r.category))).mem_iff]
    decide

end ECommerce
